import Mathlib

/-!
Keypad scan over AXI GPIO with interrupts (`Interrupt.c`).

A shallow embedding of `src/Zynq7000Interruptions/Interrupt.c`.

* C `int` variables that only ever hold the non-negative literals of the program
  (`cols`, `cols_msb`, `key`) are natural numbers; no operation on them can overflow
  (`cols` never exceeds `0x1f`).
* `rows` receives a `u32` register value converted to `int` and shifted, so it is an
  integer (`u32_to_int`, arithmetic shift).
* Calls into the Xilinx GPIO driver are recorded as a trace of `Op`s; their effect on
  the registers of the GPIO block is given by `Op.apply`.
* The values returned by `XGpio_DiscreteRead` are an input: `rd n` is the value returned
  by the `n`-th read (counting from 0) of one call of `KYPD_Scan`.
-/

namespace Zynq

/-! ## Constants -/

/-- Macro `#define LED_CHANNEL 1`. -/
def LED_CHANNEL : Nat := 1

/-- Macro `#define KEYPAD_CHANNEL 2`. -/
def KEYPAD_CHANNEL : Nat := 2

/-- Channel 2 bit of the interrupt registers of the AXI GPIO block; the driver header
`xgpio_l.h` defines `XGPIO_IR_CH2_MASK` as `0x2`. -/
def XGPIO_IR_CH2_MASK : Nat := 0x2

/-- Macro `#define KYPD_INT_MASK XGPIO_IR_CH2_MASK`. -/
def KYPD_INT_MASK : Nat := XGPIO_IR_CH2_MASK

/-! ## Peripheral operations and register state -/

/-- One call into the GPIO driver, with its arguments (the instance pointer is always
`&Gpio` and is left out). -/
inductive Op where
  | interruptDisable (mask : Nat)
  | interruptGetStatus
  | discreteWrite (channel : Nat) (data : Nat)
  | discreteRead (channel : Nat)
  | interruptClear (mask : Nat)
  | interruptEnable (mask : Nat)
  deriving DecidableEq

/-- Registers of the AXI GPIO block that the program touches: the two channel data
registers, the interrupt enable register and the interrupt status register. -/
structure XGpio where
  data1 : Nat
  data2 : Nat
  ier : Nat
  isr : Nat
  deriving DecidableEq

/-- Driver `XGpio_InterruptDisable`: `IER := IER & ~Mask` on a 32-bit register. -/
def XGpio_InterruptDisable (g : XGpio) (mask : Nat) : XGpio :=
  { g with ier := g.ier &&& (0xFFFFFFFF ^^^ mask) }

/-- Driver `XGpio_InterruptEnable`: `IER := IER | Mask`. -/
def XGpio_InterruptEnable (g : XGpio) (mask : Nat) : XGpio :=
  { g with ier := g.ier ||| mask }

/-- Driver `XGpio_InterruptClear`: the status bits selected by `Mask` are cleared. -/
def XGpio_InterruptClear (g : XGpio) (mask : Nat) : XGpio :=
  { g with isr := g.isr &&& (0xFFFFFFFF ^^^ mask) }

/-- Driver `XGpio_InterruptGetStatus`: the value of the interrupt status register. -/
def XGpio_InterruptGetStatus (g : XGpio) : Nat := g.isr

/-- Driver `XGpio_DiscreteWrite`: the data register of the channel receives the value. -/
def XGpio_DiscreteWrite (g : XGpio) (channel data : Nat) : XGpio :=
  if channel = 1 then { g with data1 := data }
  else if channel = 2 then { g with data2 := data }
  else g

/-- Effect of one driver call on the registers. Reads leave them unchanged. -/
def Op.apply (g : XGpio) : Op → XGpio
  | .interruptDisable mask => XGpio_InterruptDisable g mask
  | .interruptGetStatus => g
  | .discreteWrite channel data => XGpio_DiscreteWrite g channel data
  | .discreteRead _ => g
  | .interruptClear mask => XGpio_InterruptClear g mask
  | .interruptEnable mask => XGpio_InterruptEnable g mask

/-- Steps of a trace run from registers `g`: for each call, the registers before it,
the call, and the registers after it. -/
def steps (g : XGpio) : List Op → List (XGpio × Op × XGpio)
  | [] => []
  | op :: ops => (g, op, Op.apply g op) :: steps (Op.apply g op) ops

/-- Register state once the whole trace has run. -/
def exec (g : XGpio) (ops : List Op) : XGpio := ops.foldl Op.apply g

/-- The keypad interrupt source is enabled: its bit of the enable register is set. -/
def kypdEnabled (g : XGpio) : Prop := g.ier &&& KYPD_INT_MASK = KYPD_INT_MASK

/-- The keypad interrupt source is disabled: its bit of the enable register is clear. -/
def kypdDisabled (g : XGpio) : Prop := g.ier &&& KYPD_INT_MASK = 0

instance (g : XGpio) : Decidable (kypdEnabled g) := by unfold kypdEnabled; infer_instance

instance (g : XGpio) : Decidable (kypdDisabled g) := by unfold kypdDisabled; infer_instance

/-! ## `KYPD_Scan` -/

/-- Conversion of the `u32` returned by `XGpio_DiscreteRead` to the `int` variable
`rows` (two's complement, 32 bits). -/
def u32_to_int (v : Nat) : Int :=
  if v % 2 ^ 32 < 2 ^ 31 then ((v % 2 ^ 32 : Nat) : Int) else ((v % 2 ^ 32 : Nat) : Int) - 2 ^ 32

/-- The variable `rows` after `rows = XGpio_DiscreteRead(..); rows = rows >> 4;`. -/
def rowsOf (v : Nat) : Int := u32_to_int v >>> (4 : Nat)

/-- The inner `switch(rows)` of the case `cols == 0xe`. -/
def switchRowsE (rows : Int) (key : Nat) : Nat :=
  if rows = 0xf then 0x10
  else if rows = 0xe then 0xd
  else if rows = 0xd then 0xc
  else if rows = 0xb then 0xb
  else if rows = 0x7 then 0xa
  else key

/-- The inner `switch(rows)` of the case `cols == 0xd`. -/
def switchRowsD (rows : Int) (key : Nat) : Nat :=
  if rows = 0xf then 0x10
  else if rows = 0xe then 0xe
  else if rows = 0xd then 0x9
  else if rows = 0xb then 0x6
  else if rows = 0x7 then 0x3
  else key

/-- The inner `switch(rows)` of the case `cols == 0xb`. -/
def switchRowsB (rows : Int) (key : Nat) : Nat :=
  if rows = 0xf then 0x10
  else if rows = 0xe then 0xf
  else if rows = 0xd then 0x8
  else if rows = 0xb then 0x5
  else if rows = 0x7 then 0x2
  else key

/-- The inner `switch(rows)` of the case `cols == 0x7`. -/
def switchRows7 (rows : Int) (key : Nat) : Nat :=
  if rows = 0xf then 0x10
  else if rows = 0xe then 0x0
  else if rows = 0xd then 0x7
  else if rows = 0xb then 0x4
  else if rows = 0x7 then 0x1
  else key

/-- The nested `switch((cols)) { ... }`: the value of `key` after it. Neither switch has
a `default`, so `key` keeps its value when no case matches. -/
def switchCols (cols : Nat) (rows : Int) (key : Nat) : Nat :=
  if cols = 0xe then switchRowsE rows key
  else if cols = 0xd then switchRowsD rows key
  else if cols = 0xb then switchRowsB rows key
  else if cols = 0x7 then switchRows7 rows key
  else key

/-- Statement `cols = cols & 0x0000000f;`. -/
def maskCols (cols : Nat) : Nat := cols &&& 0x0000000f

/-- Statements `cols_msb = (cols >> 3) & 1; cols = (cols << 1) | cols_msb;`. -/
def rotateCols (cols : Nat) : Nat :=
  let cols_msb := (cols >>> 3) &&& 1
  (cols <<< 1) ||| cols_msb

/-- Outcome of one call of `KYPD_Scan`: `ret = some key` when `return key;` was executed,
`ret = none` when control left the `for` loop and reached the closing brace of the
function, which has no `return` statement there; `ops` is the trace of driver calls. -/
structure ScanOut where
  ret : Option Nat
  ops : List Op
  deriving DecidableEq

/-- The `for(i=4;i>0;i--)` loop of `KYPD_Scan`: `i` is the loop counter, `n` the number
of reads already made, `cols` and `key` the variables at the top of the iteration. -/
def KYPD_Scan.loop (rd : Nat → Nat) : Nat → Nat → Nat → Nat → ScanOut
  | 0, _, _, _ => ⟨none, []⟩
  | i + 1, n, cols, key =>
    let w := Op.discreteWrite KEYPAD_CHANNEL cols
    let r := Op.discreteRead KEYPAD_CHANNEL
    let rows := rowsOf (rd n)
    let cols := maskCols cols
    let key := switchCols cols rows key
    if key ≠ 0x10 then ⟨some key, [w, r]⟩
    else
      let rest := KYPD_Scan.loop rd i (n + 1) (rotateCols cols) key
      ⟨rest.ret, w :: r :: rest.ops⟩

/-- Function `int KYPD_Scan(void)`: `cols = 0xe`, `key = 0x0`, then the loop. -/
def KYPD_Scan (rd : Nat → Nat) : ScanOut := KYPD_Scan.loop rd 4 0 0xe 0x0

/-! ## `KYPD_Intr_Handler` -/

/-- Trace of driver calls of one invocation of `KYPD_Intr_Handler` entered with
registers `g`. `undef` stands for the value that `led_data = KYPD_Scan();` receives when
`KYPD_Scan` ends without executing `return`: C leaves that value undefined, so it is a
parameter and every statement about the handler is for all of its values. -/
def KYPD_Intr_Handler (g : XGpio) (rd : Nat → Nat) (undef : Nat) : List Op :=
  let step1 := Op.interruptDisable KYPD_INT_MASK
  let g1 := Op.apply g step1
  if (XGpio_InterruptGetStatus g1 &&& KYPD_INT_MASK) ≠ KYPD_INT_MASK then
    [step1, Op.interruptGetStatus]
  else
    let scan := KYPD_Scan rd
    let led_data := scan.ret.getD undef
    [step1, Op.interruptGetStatus] ++ scan.ops ++
      [Op.discreteWrite LED_CHANNEL led_data,
       Op.interruptClear KYPD_INT_MASK,
       Op.interruptEnable KYPD_INT_MASK]

/-! ## Vocabulary of the specification -/

/-- Row reading of a value read from the keypad register: its bits 4 to 7. -/
def rowReading (v : Nat) : Nat := (v / 16) % 16

/-- Column pattern of column step `k` (steps counted from 0) as the specification lists
them: `1110`, `1101`, `1011`, `0111`. -/
def columnPattern (k : Nat) : Nat :=
  if k = 0 then 0xE else if k = 1 then 0xD else if k = 2 then 0xB else 0x7

/-- Key table of the specification (column pattern, row pattern) to key code; pairs that
are not in the table give `none`. -/
def keyTable (col row : Nat) : Option Nat :=
  if col = 0xE then
    (if row = 0xE then some 13 else if row = 0xD then some 12
     else if row = 0xB then some 11 else if row = 0x7 then some 10 else none)
  else if col = 0xD then
    (if row = 0xE then some 14 else if row = 0xD then some 9
     else if row = 0xB then some 6 else if row = 0x7 then some 3 else none)
  else if col = 0xB then
    (if row = 0xE then some 15 else if row = 0xD then some 8
     else if row = 0xB then some 5 else if row = 0x7 then some 2 else none)
  else if col = 0x7 then
    (if row = 0xE then some 0 else if row = 0xD then some 7
     else if row = 0xB then some 4 else if row = 0x7 then some 1 else none)
  else none

/-- Values of the `data` argument of the writes to one channel, in trace order. -/
def writtenTo (channel : Nat) : List Op → List Nat
  | [] => []
  | Op.discreteWrite c d :: ops =>
    if c = channel then d :: writtenTo channel ops else writtenTo channel ops
  | _ :: ops => writtenTo channel ops

/-- Pair of driver calls of one column step: the write of `cols`, then the read. -/
def stepOps (cols : Nat) : List Op :=
  [Op.discreteWrite KEYPAD_CHANNEL cols, Op.discreteRead KEYPAD_CHANNEL]

/-- Trace made of one (column write, register read) pair per listed value of `cols`. -/
def pairsOf : List Nat → List Op
  | [] => []
  | c :: cs =>
    Op.discreteWrite KEYPAD_CHANNEL c :: Op.discreteRead KEYPAD_CHANNEL :: pairsOf cs

/-- Variables `(cols, key)` at the top of iteration `n` (counted from 0) of the loop of
`KYPD_Scan`, as the loop body computes them when no earlier iteration returned. -/
def loopVars (rd : Nat → Nat) : Nat → Nat × Nat
  | 0 => (0xe, 0x0)
  | n + 1 =>
    (rotateCols (maskCols (loopVars rd n).1),
      switchCols (maskCols (loopVars rd n).1) (rowsOf (rd n)) (loopVars rd n).2)

/-- Column step `n` (counted from 0) finds a key code in the table of the specification:
the pair (column pattern of the step, row reading of the value read at the step) is one of
the 16 table cells. -/
def tableMatchAt (rd : Nat → Nat) (n : Nat) : Prop :=
  keyTable (columnPattern n) (rowReading (rd n)) ≠ none

instance (rd : Nat → Nat) (n : Nat) : Decidable (tableMatchAt rd n) := by
  unfold tableMatchAt; infer_instance

/-- The status confirmation of the handler succeeds: the interrupt status read after the
disable has the keypad channel mask bit set. -/
def statusConfirmed (g : XGpio) : Prop :=
  XGpio_InterruptGetStatus (XGpio_InterruptDisable g KYPD_INT_MASK) &&& KYPD_INT_MASK
    = KYPD_INT_MASK

instance (g : XGpio) : Decidable (statusConfirmed g) := by
  unfold statusConfirmed; infer_instance

/-- The call is an `XGpio_InterruptDisable`. -/
def Op.isDisable : Op → Bool
  | .interruptDisable _ => true
  | _ => false

/-- The call is an `XGpio_InterruptEnable`. -/
def Op.isEnable : Op → Bool
  | .interruptEnable _ => true
  | _ => false

/-- The call is an `XGpio_InterruptClear`. -/
def Op.isClear : Op → Bool
  | .interruptClear _ => true
  | _ => false

/-- The call is an `XGpio_InterruptGetStatus`. -/
def Op.isGetStatus : Op → Bool
  | .interruptGetStatus => true
  | _ => false

/-- The call is an `XGpio_DiscreteWrite` to the given channel. -/
def Op.isWriteTo (channel : Nat) : Op → Bool
  | .discreteWrite c _ => c == channel
  | _ => false

/-- The call is an `XGpio_DiscreteRead`. -/
def Op.isRead : Op → Bool
  | .discreteRead _ => true
  | _ => false

/-- The call leaves the interrupt enable register alone (neither enable nor disable). -/
def Op.keepsIer (op : Op) : Bool := !op.isDisable && !op.isEnable

/-! ## Setup: `IntCInitFunction` and `main` -/

/-- Status code `XST_SUCCESS`; the driver header `xstatus.h` defines it as `0L`. -/
def XST_SUCCESS : Int := 0

/-- Status code `XST_FAILURE`; the driver header `xstatus.h` defines it as `1L`. -/
def XST_FAILURE : Int := 1

/-- One call made during setup, into the GPIO driver, the interrupt controller driver or
the exception layer (instance pointers and identifiers are left out). -/
inductive SetupCall where
  | gpioInitialize
  | gpioSetDataDirection (channel mask : Nat)
  | scuGicLookupConfig
  | scuGicCfgInitialize
  | exceptionRegisterHandler
  | exceptionEnable
  | scuGicConnect
  | gpioInterruptEnable (mask : Nat)
  | gpioInterruptGlobalEnable
  | scuGicEnable
  deriving DecidableEq

/-- The call enables a GPIO interrupt (`XGpio_InterruptEnable` or
`XGpio_InterruptGlobalEnable`). -/
def SetupCall.enablesGpioInterrupt : SetupCall → Bool
  | .gpioInterruptEnable _ => true
  | .gpioInterruptGlobalEnable => true
  | _ => false

/-- The call connects the handler (`XScuGic_Connect`). -/
def SetupCall.isConnect : SetupCall → Bool
  | .scuGicConnect => true
  | _ => false

/-- Outcome of `IntCInitFunction`: the returned status and the calls made. -/
structure SetupOut where
  ret : Int
  calls : List SetupCall
  deriving DecidableEq

/-- Function `IntCInitFunction`. The statuses returned by `XScuGic_CfgInitialize` and by
`XScuGic_Connect` are inputs (`connectStatus` is only looked at when the connection is
attempted). -/
def IntCInitFunction (cfgStatus connectStatus : Int) : SetupOut :=
  let calls1 := [SetupCall.scuGicLookupConfig, SetupCall.scuGicCfgInitialize]
  if cfgStatus ≠ XST_SUCCESS then ⟨XST_FAILURE, calls1⟩
  else
    let calls2 := calls1 ++
      [SetupCall.exceptionRegisterHandler, SetupCall.exceptionEnable, SetupCall.scuGicConnect]
    if connectStatus ≠ XST_SUCCESS then ⟨XST_FAILURE, calls2⟩
    else
      ⟨XST_SUCCESS, calls2 ++
        [SetupCall.gpioInterruptEnable KYPD_INT_MASK, SetupCall.gpioInterruptGlobalEnable,
         SetupCall.scuGicEnable]⟩

/-- Outcome of `main`: `ret = some v` when `return v;` was executed, `ret = none` when
control entered `while(1);`, which never ends; `calls` are the calls made before. -/
structure MainOut where
  ret : Option Int
  calls : List SetupCall
  deriving DecidableEq

/-- Function `main`. The status returned by `XGpio_Initialize` is an input, like the two
statuses of `IntCInitFunction`. -/
def main (gpioStatus cfgStatus connectStatus : Int) : MainOut :=
  if gpioStatus ≠ XST_SUCCESS then ⟨some XST_FAILURE, [SetupCall.gpioInitialize]⟩
  else
    let calls := [SetupCall.gpioInitialize,
      SetupCall.gpioSetDataDirection LED_CHANNEL 0x0,
      SetupCall.gpioSetDataDirection KEYPAD_CHANNEL 0xf0]
    let init := IntCInitFunction cfgStatus connectStatus
    if init.ret ≠ XST_SUCCESS then ⟨some XST_FAILURE, calls ++ init.calls⟩
    else ⟨none, calls ++ init.calls⟩

/-! ## `Delay` -/

/-- The loop `while(counter>0) counter -= counter;` of `Delay`: from the value of
`counter` and the number of executions of the body so far, the final value of `counter`
and the total number of executions of the body. -/
def Delay.loop (counter : Int) (n : Nat) : Int × Nat :=
  if counter > 0 then Delay.loop (counter - counter) (n + 1) else (counter, n)
termination_by counter.toNat
decreasing_by
  simp only [sub_self, Int.toNat_zero]
  omega

/-- Function `void Delay(void)`: `counter = 50000`, then the loop; the result is the final
value of `counter` and the number of times the loop body ran. -/
def Delay : Int × Nat := Delay.loop 50000 0

/-! ## More vocabulary of the specification -/

/-- The four 4-bit patterns with exactly one bit low, used for columns and for rows. -/
def oneLowPatterns : List Nat := [0xE, 0xD, 0xB, 0x7]

/-- Column update of the loop followed by the 4-bit mask of the next iteration:
`c -> (((c << 1) | ((c >> 3) & 1)) & 0xF)`. -/
def nextCols (c : Nat) : Nat := maskCols (rotateCols c)

/-- Circular left rotation by one position of a 4-bit value: bit `i` of the result is
bit `i - 1` (modulo 4) of the argument. -/
def rotl4 (c : Nat) : Nat :=
  ((List.range 4).map (fun i => if c.testBit ((i + 3) % 4) then 2 ^ i else 0)).sum

/-- Number of zero bits among the four low bits. -/
def zeroBits4 (c : Nat) : Nat := ((List.range 4).filter (fun i => !c.testBit i)).length

/-- Row reading as steps 2 to 4 see it when readings outside the four row patterns count
as `0xF`. -/
def skippedAsF (r : Nat) : Nat := if r ∈ oneLowPatterns then r else 0xF

/-! ## Auxiliary facts -/

theorem rowsOf_eq_rowReading (v : Nat) (h : v < 256) : rowsOf v = (rowReading v : Int) := by
  unfold rowsOf u32_to_int rowReading
  rw [Int.shiftRight_eq_div_pow]
  have h1 : v % 2 ^ 32 = v := Nat.mod_eq_of_lt (by omega)
  rw [h1]
  norm_num
  split <;> omega

theorem loop_succ (rd : Nat → Nat) (i n cols key : Nat) :
    KYPD_Scan.loop rd (i + 1) n cols key =
      if switchCols (maskCols cols) (rowsOf (rd n)) key ≠ 0x10 then
        ⟨some (switchCols (maskCols cols) (rowsOf (rd n)) key), stepOps cols⟩
      else
        ⟨(KYPD_Scan.loop rd i (n + 1) (rotateCols (maskCols cols))
            (switchCols (maskCols cols) (rowsOf (rd n)) key)).ret,
          stepOps cols ++ (KYPD_Scan.loop rd i (n + 1) (rotateCols (maskCols cols))
            (switchCols (maskCols cols) (rowsOf (rd n)) key)).ops⟩ := by
  rfl

theorem maskCols_0e : maskCols 0xe = 0xe := by decide

theorem maskCols_1d : maskCols 0x1d = 0xd := by decide

theorem maskCols_1b : maskCols 0x1b = 0xb := by decide

theorem maskCols_17 : maskCols 0x17 = 0x7 := by decide

theorem rotateCols_e : rotateCols 0xe = 0x1d := by decide

theorem rotateCols_d : rotateCols 0xd = 0x1b := by decide

theorem rotateCols_b : rotateCols 0xb = 0x17 := by decide

theorem rotateCols_7 : rotateCols 0x7 = 0xe := by decide

theorem switchCols_e (rows : Int) (key : Nat) : switchCols 0xe rows key = switchRowsE rows key := by
  simp [switchCols]

theorem switchCols_d (rows : Int) (key : Nat) : switchCols 0xd rows key = switchRowsD rows key := by
  simp [switchCols]

theorem switchCols_b (rows : Int) (key : Nat) : switchCols 0xb rows key = switchRowsB rows key := by
  simp [switchCols]

theorem switchCols_7 (rows : Int) (key : Nat) : switchCols 0x7 rows key = switchRows7 rows key := by
  simp [switchCols]

/-- The four iterations of `KYPD_Scan` written out: the column values are the constants
the loop computes, and `key` enters iterations 2 to 4 with the value `0x10`. -/
theorem KYPD_Scan_unfold (rd : Nat → Nat) :
    KYPD_Scan rd =
      if switchRowsE (rowsOf (rd 0)) 0 ≠ 0x10 then
        ⟨some (switchRowsE (rowsOf (rd 0)) 0), stepOps 0xe⟩
      else if switchRowsD (rowsOf (rd 1)) 0x10 ≠ 0x10 then
        ⟨some (switchRowsD (rowsOf (rd 1)) 0x10), stepOps 0xe ++ stepOps 0x1d⟩
      else if switchRowsB (rowsOf (rd 2)) 0x10 ≠ 0x10 then
        ⟨some (switchRowsB (rowsOf (rd 2)) 0x10), stepOps 0xe ++ stepOps 0x1d ++ stepOps 0x1b⟩
      else if switchRows7 (rowsOf (rd 3)) 0x10 ≠ 0x10 then
        ⟨some (switchRows7 (rowsOf (rd 3)) 0x10),
          stepOps 0xe ++ stepOps 0x1d ++ stepOps 0x1b ++ stepOps 0x17⟩
      else
        ⟨none, stepOps 0xe ++ stepOps 0x1d ++ stepOps 0x1b ++ stepOps 0x17⟩ := by
  unfold KYPD_Scan
  rw [loop_succ, maskCols_0e, switchCols_e, rotateCols_e]
  by_cases h0 : switchRowsE (rowsOf (rd 0)) 0 = 0x10
  · rw [if_neg (not_not.mpr h0), if_neg (not_not.mpr h0), h0]
    rw [loop_succ, maskCols_1d, switchCols_d, rotateCols_d]
    by_cases h1 : switchRowsD (rowsOf (rd 1)) 0x10 = 0x10
    · rw [if_neg (not_not.mpr h1), if_neg (not_not.mpr h1), h1]
      rw [loop_succ, maskCols_1b, switchCols_b, rotateCols_b]
      by_cases h2 : switchRowsB (rowsOf (rd 2)) 0x10 = 0x10
      · rw [if_neg (not_not.mpr h2), if_neg (not_not.mpr h2), h2]
        rw [loop_succ, maskCols_17, switchCols_7, rotateCols_7]
        by_cases h3 : switchRows7 (rowsOf (rd 3)) 0x10 = 0x10
        · rw [if_neg (not_not.mpr h3), if_neg (not_not.mpr h3)]
          simp [KYPD_Scan.loop]
        · rw [if_pos h3, if_pos h3]
          simp
      · rw [if_pos h2, if_pos h2]
        simp
    · rw [if_pos h1, if_pos h1]
  · rw [if_pos h0, if_pos h0]

theorem loopVars_cols (rd : Nat → Nat) :
    (loopVars rd 0).1 = 0xe ∧ (loopVars rd 1).1 = 0x1d ∧ (loopVars rd 2).1 = 0x1b ∧
      (loopVars rd 3).1 = 0x17 := by
  have c0 : (loopVars rd 0).1 = 0xe := rfl
  have c1 : (loopVars rd 1).1 = 0x1d := by
    show rotateCols (maskCols (loopVars rd 0).1) = 0x1d
    rw [c0, maskCols_0e, rotateCols_e]
  have c2 : (loopVars rd 2).1 = 0x1b := by
    show rotateCols (maskCols (loopVars rd 1).1) = 0x1b
    rw [c1, maskCols_1d, rotateCols_d]
  have c3 : (loopVars rd 3).1 = 0x17 := by
    show rotateCols (maskCols (loopVars rd 2).1) = 0x17
    rw [c2, maskCols_1b, rotateCols_b]
  exact ⟨c0, c1, c2, c3⟩

theorem switchRowsE_le (rows : Int) (key : Nat) (h : key ≤ 0x10) :
    switchRowsE rows key ≤ 0x10 := by
  unfold switchRowsE; split_ifs <;> omega

theorem switchRowsD_le (rows : Int) (key : Nat) (h : key ≤ 0x10) :
    switchRowsD rows key ≤ 0x10 := by
  unfold switchRowsD; split_ifs <;> omega

theorem switchRowsB_le (rows : Int) (key : Nat) (h : key ≤ 0x10) :
    switchRowsB rows key ≤ 0x10 := by
  unfold switchRowsB; split_ifs <;> omega

theorem switchRows7_le (rows : Int) (key : Nat) (h : key ≤ 0x10) :
    switchRows7 rows key ≤ 0x10 := by
  unfold switchRows7; split_ifs <;> omega

/-- The trace of a scan is one to four (write, read) pairs with the successive values
of `cols`. -/
theorem KYPD_Scan_ops_pairs (rd : Nat → Nat) :
    ∃ m, 1 ≤ m ∧ m ≤ 4 ∧ (KYPD_Scan rd).ops = pairsOf ([0xe, 0x1d, 0x1b, 0x17].take m) := by
  rw [KYPD_Scan_unfold]
  split_ifs
  · exact ⟨1, by omega, by omega, rfl⟩
  · exact ⟨2, by omega, by omega, rfl⟩
  · exact ⟨3, by omega, by omega, rfl⟩
  · exact ⟨4, by omega, by omega, rfl⟩
  · exact ⟨4, by omega, by omega, rfl⟩

theorem handler_early (g : XGpio) (rd : Nat → Nat) (undef : Nat) (h : ¬ statusConfirmed g) :
    KYPD_Intr_Handler g rd undef =
      [Op.interruptDisable KYPD_INT_MASK, Op.interruptGetStatus] := by
  unfold KYPD_Intr_Handler
  exact if_pos h

theorem handler_confirmed (g : XGpio) (rd : Nat → Nat) (undef : Nat) (h : statusConfirmed g) :
    KYPD_Intr_Handler g rd undef =
      [Op.interruptDisable KYPD_INT_MASK, Op.interruptGetStatus] ++ (KYPD_Scan rd).ops ++
        [Op.discreteWrite LED_CHANNEL ((KYPD_Scan rd).ret.getD undef),
         Op.interruptClear KYPD_INT_MASK,
         Op.interruptEnable KYPD_INT_MASK] := by
  unfold KYPD_Intr_Handler
  exact if_neg (not_not.mpr h)

theorem disable_disabled (g : XGpio) :
    kypdDisabled (XGpio_InterruptDisable g KYPD_INT_MASK) := by
  have hc : ((0xFFFFFFFF ^^^ 2) &&& 2 : Nat) = 0 := by decide
  show (g.ier &&& (0xFFFFFFFF ^^^ 2)) &&& 2 = 0
  rw [Nat.land_assoc, hc]
  exact Nat.and_zero _

theorem enable_enabled (g : XGpio) :
    kypdEnabled (XGpio_InterruptEnable g KYPD_INT_MASK) := by
  show (g.ier ||| 2) &&& 2 = 2
  apply Nat.eq_of_testBit_eq
  intro i
  simp only [Nat.testBit_and, Nat.testBit_or]
  cases g.ier.testBit i <;> cases Nat.testBit 2 i <;> rfl

theorem disable_other_bits (g : XGpio) (i : Nat) (hi : i < 32) (h1 : i ≠ 1) :
    (XGpio_InterruptDisable g KYPD_INT_MASK).ier.testBit i = g.ier.testBit i := by
  show (g.ier &&& (0xFFFFFFFF ^^^ 2)).testBit i = g.ier.testBit i
  have hc : Nat.testBit (0xFFFFFFFF ^^^ 2) i = true := by
    interval_cases i <;> first | (exact absurd rfl h1) | decide
  rw [Nat.testBit_and, hc, Bool.and_true]

theorem apply_keepsIer (g : XGpio) (op : Op) (h : op.keepsIer = true) :
    (Op.apply g op).ier = g.ier := by
  cases op <;> simp [Op.keepsIer, Op.isDisable, Op.isEnable] at h <;>
    simp [Op.apply, XGpio_DiscreteWrite, XGpio_InterruptClear]
  split_ifs <;> rfl

theorem exec_append (g : XGpio) (a b : List Op) :
    exec g (a ++ b) = exec (exec g a) b := by
  unfold exec
  exact List.foldl_append _ _ _ _

theorem exec_keepsIer (g : XGpio) (ops : List Op) (h : ∀ op ∈ ops, op.keepsIer = true) :
    (exec g ops).ier = g.ier := by
  induction ops generalizing g with
  | nil => rfl
  | cons op ops ih =>
    show (exec (Op.apply g op) ops).ier = g.ier
    rw [ih _ (fun o ho => h o (List.mem_cons_of_mem _ ho)),
      apply_keepsIer g op (h op (List.mem_cons_self _ _))]

theorem steps_append (g : XGpio) (a b : List Op) :
    steps g (a ++ b) = steps g a ++ steps (exec g a) b := by
  induction a generalizing g with
  | nil => rfl
  | cons op a ih =>
    show (g, op, Op.apply g op) :: steps (Op.apply g op) (a ++ b) = _
    rw [ih]
    rfl

theorem steps_keepsIer (g : XGpio) (ops : List Op)
    (h : ∀ op ∈ ops, op.keepsIer = true) :
    ∀ t ∈ steps g ops, t.1.ier = g.ier ∧ t.2.2.ier = g.ier := by
  induction ops generalizing g with
  | nil => intro t ht; cases ht
  | cons op ops ih =>
    intro t ht
    have ha := apply_keepsIer g op (h op (List.mem_cons_self _ _))
    rcases List.mem_cons.mp ht with rfl | ht
    · exact ⟨rfl, ha⟩
    · have := ih (Op.apply g op) (fun o ho => h o (List.mem_cons_of_mem _ ho)) t ht
      rw [ha] at this
      exact this

theorem pairsOf_keepsIer (cs : List Nat) : ∀ op ∈ pairsOf cs, op.keepsIer = true := by
  induction cs with
  | nil => intro op h; cases h
  | cons c cs ih =>
    intro op h
    rcases List.mem_cons.mp h with rfl | h
    · rfl
    · rcases List.mem_cons.mp h with rfl | h
      · rfl
      · exact ih op h

theorem scan_ops_keepsIer (rd : Nat → Nat) : ∀ op ∈ (KYPD_Scan rd).ops, op.keepsIer = true := by
  obtain ⟨m, _, _, hm⟩ := KYPD_Scan_ops_pairs rd
  rw [hm]
  exact pairsOf_keepsIer _

theorem kypdDisabled_of_ier (g g1 : XGpio) (h : g.ier = g1.ier) (hd : kypdDisabled g1) :
    kypdDisabled g := by
  unfold kypdDisabled at *
  rw [h]
  exact hd

theorem keepsIer_isDisable (op : Op) (h : op.keepsIer = true) : op.isDisable = false := by
  cases op <;> simp [Op.keepsIer, Op.isDisable, Op.isEnable] at h ⊢

theorem keepsIer_isEnable (op : Op) (h : op.keepsIer = true) : op.isEnable = false := by
  cases op <;> simp [Op.keepsIer, Op.isDisable, Op.isEnable] at h ⊢

/-- The calls of the handler between the disable and the enable on the confirmed path. -/
theorem handler_mid_keepsIer (rd : Nat → Nat) (v : Nat) :
    ∀ op ∈ [Op.interruptGetStatus] ++ (KYPD_Scan rd).ops ++
        [Op.discreteWrite LED_CHANNEL v, Op.interruptClear KYPD_INT_MASK],
      op.keepsIer = true := by
  intro op hop
  rcases List.mem_append.mp hop with hop | hop
  · rcases List.mem_append.mp hop with hop | hop
    · rcases List.mem_singleton.mp hop with rfl
      rfl
    · exact scan_ops_keepsIer rd op hop
  · rcases List.mem_cons.mp hop with rfl | hop
    · rfl
    · rcases List.mem_singleton.mp hop with rfl
      rfl

theorem handler_confirmed_split (g : XGpio) (rd : Nat → Nat) (undef : Nat)
    (h : statusConfirmed g) :
    KYPD_Intr_Handler g rd undef =
      [Op.interruptDisable KYPD_INT_MASK] ++
        ([Op.interruptGetStatus] ++ (KYPD_Scan rd).ops ++
          [Op.discreteWrite LED_CHANNEL ((KYPD_Scan rd).ret.getD undef),
           Op.interruptClear KYPD_INT_MASK]) ++
        [Op.interruptEnable KYPD_INT_MASK] := by
  rw [handler_confirmed g rd undef h]
  simp

theorem switchCols_key_irrelevant (c r : Nat) (hc : c ∈ oneLowPatterns)
    (hr : r ∈ oneLowPatterns) (key : Nat) :
    switchCols c (r : Int) key = switchCols c (r : Int) 0 := by
  simp only [oneLowPatterns, List.mem_cons, List.mem_singleton, List.not_mem_nil,
    or_false] at hc hr
  rcases hc with rfl | rfl | rfl | rfl <;> rcases hr with rfl | rfl | rfl | rfl <;> rfl

theorem switchCols_injective_zero :
    ∀ c ∈ oneLowPatterns, ∀ r ∈ oneLowPatterns, ∀ c' ∈ oneLowPatterns, ∀ r' ∈ oneLowPatterns,
      switchCols c (r : Int) 0 = switchCols c' (r' : Int) 0 → c = c' ∧ r = r' := by
  decide

theorem switchCols_onto_zero :
    ∀ code, code < 16 →
      ∃ c ∈ oneLowPatterns, ∃ r ∈ oneLowPatterns, switchCols c (r : Int) 0 = code := by
  decide

theorem Delay_loop_pos (counter : Int) (n : Nat) (h : counter > 0) :
    Delay.loop counter n = Delay.loop (counter - counter) (n + 1) := by
  rw [Delay.loop, if_pos h]

theorem Delay_loop_nonpos (counter : Int) (n : Nat) (h : ¬ counter > 0) :
    Delay.loop counter n = (counter, n) := by
  rw [Delay.loop, if_neg h]

theorem rowReading_lt (v : Nat) : rowReading v < 16 := Nat.mod_lt _ (by decide)

theorem switchRowsE_first_step :
    ∀ r : Nat, r < 16 →
      (switchRowsE (r : Int) 0 = 0x10 ↔ r = 0xF) ∧
      (switchRowsE (r : Int) 0 = 0 ↔ r ∉ [0xF, 0xE, 0xD, 0xB, 0x7]) := by
  decide

theorem switchRowsD_later_step :
    ∀ r : Nat, r < 16 →
      (switchRowsD (r : Int) 0x10 = 0x10 ↔ r ∉ oneLowPatterns) ∧
      switchRowsD (r : Int) 0x10 ≠ 0 ∧
      switchRowsD ((skippedAsF r : Nat) : Int) 0x10 = switchRowsD (r : Int) 0x10 := by
  decide

theorem switchRowsB_later_step :
    ∀ r : Nat, r < 16 →
      (switchRowsB (r : Int) 0x10 = 0x10 ↔ r ∉ oneLowPatterns) ∧
      switchRowsB (r : Int) 0x10 ≠ 0 ∧
      switchRowsB ((skippedAsF r : Nat) : Int) 0x10 = switchRowsB (r : Int) 0x10 := by
  decide

theorem switchRows7_later_step :
    ∀ r : Nat, r < 16 →
      (switchRows7 (r : Int) 0x10 = 0x10 ↔ r ∉ oneLowPatterns) ∧
      (switchRows7 (r : Int) 0x10 = 0 ↔ r = 0xE) ∧
      switchRows7 ((skippedAsF r : Nat) : Int) 0x10 = switchRows7 (r : Int) 0x10 := by
  decide

theorem skippedAsF_lt (r : Nat) (h : r < 16) : skippedAsF r < 16 := by
  unfold skippedAsF
  split_ifs <;> omega

theorem table_step_E :
    ∀ r : Nat, r < 16 →
      (keyTable 0xE r ≠ none →
        some (switchRowsE (r : Int) 0) = keyTable 0xE r ∧ switchRowsE (r : Int) 0 ≠ 0x10) ∧
      (keyTable 0xE r = none → r ∈ [0xF, 0xE, 0xD, 0xB, 0x7] →
        switchRowsE (r : Int) 0 = 0x10) := by
  decide

theorem table_step_D :
    ∀ r : Nat, r < 16 →
      (keyTable 0xD r ≠ none →
        some (switchRowsD (r : Int) 0x10) = keyTable 0xD r ∧
          switchRowsD (r : Int) 0x10 ≠ 0x10) ∧
      (keyTable 0xD r = none → switchRowsD (r : Int) 0x10 = 0x10) := by
  decide

theorem table_step_B :
    ∀ r : Nat, r < 16 →
      (keyTable 0xB r ≠ none →
        some (switchRowsB (r : Int) 0x10) = keyTable 0xB r ∧
          switchRowsB (r : Int) 0x10 ≠ 0x10) ∧
      (keyTable 0xB r = none → switchRowsB (r : Int) 0x10 = 0x10) := by
  decide

theorem table_step_7 :
    ∀ r : Nat, r < 16 →
      (keyTable 0x7 r ≠ none →
        some (switchRows7 (r : Int) 0x10) = keyTable 0x7 r ∧
          switchRows7 (r : Int) 0x10 ≠ 0x10) ∧
      (keyTable 0x7 r = none → switchRows7 (r : Int) 0x10 = 0x10) := by
  decide

/-- The scan is a function of the four values the switches give to `key`. -/
theorem KYPD_Scan_congr_keys (rd rd' : Nat → Nat)
    (h0 : switchRowsE (rowsOf (rd 0)) 0 = switchRowsE (rowsOf (rd' 0)) 0)
    (h1 : switchRowsD (rowsOf (rd 1)) 0x10 = switchRowsD (rowsOf (rd' 1)) 0x10)
    (h2 : switchRowsB (rowsOf (rd 2)) 0x10 = switchRowsB (rowsOf (rd' 2)) 0x10)
    (h3 : switchRows7 (rowsOf (rd 3)) 0x10 = switchRows7 (rowsOf (rd' 3)) 0x10) :
    KYPD_Scan rd = KYPD_Scan rd' := by
  rw [KYPD_Scan_unfold, KYPD_Scan_unfold, h0, h1, h2, h3]

/-- The scan is a function of the four values of `rows`. -/
theorem KYPD_Scan_congr (rd rd' : Nat → Nat) (h0 : rowsOf (rd 0) = rowsOf (rd' 0))
    (h1 : rowsOf (rd 1) = rowsOf (rd' 1)) (h2 : rowsOf (rd 2) = rowsOf (rd' 2))
    (h3 : rowsOf (rd 3) = rowsOf (rd' 3)) : KYPD_Scan rd = KYPD_Scan rd' :=
  KYPD_Scan_congr_keys rd rd' (by rw [h0]) (by rw [h1]) (by rw [h2]) (by rw [h3])

/-! ## The scan engine -/

/-- C1: for each column step `k` (patterns `0xE, 0xD, 0xB, 0x7`) and each row pattern `r`
among `0xE, 0xD, 0xB, 0x7`, if the 8-bit values read at the steps before `k` all have row
reading `0xF` and the value read at step `k` has row reading `r`, then `KYPD_Scan`
returns exactly the key code of the table cell (column `k`, row `r`). -/
theorem KYPD_Scan_returns_table_cell (rd : Nat → Nat) (k r : Nat) (hk : k < 4)
    (hr : r ∈ [0xE, 0xD, 0xB, 0x7])
    (h8 : ∀ j, j ≤ k → rd j < 256)
    (hprev : ∀ j, j < k → rowReading (rd j) = 0xF)
    (hrow : rowReading (rd k) = r) :
    (KYPD_Scan rd).ret = keyTable (columnPattern k) r ∧
      keyTable (columnPattern k) r ≠ none := by
  have e0 : k ≥ 1 → rowsOf (rd 0) = 0xF := fun h => by
    rw [rowsOf_eq_rowReading _ (h8 0 (by omega)), hprev 0 (by omega)]; rfl
  have e1 : k ≥ 2 → rowsOf (rd 1) = 0xF := fun h => by
    rw [rowsOf_eq_rowReading _ (h8 1 (by omega)), hprev 1 (by omega)]; rfl
  have e2 : k ≥ 3 → rowsOf (rd 2) = 0xF := fun h => by
    rw [rowsOf_eq_rowReading _ (h8 2 (by omega)), hprev 2 (by omega)]; rfl
  have ek : rowsOf (rd k) = (r : Int) := by
    rw [rowsOf_eq_rowReading _ (h8 k (le_refl k)), hrow]
  simp only [List.mem_cons, List.mem_singleton, List.not_mem_nil, or_false] at hr
  rw [KYPD_Scan_unfold]
  interval_cases k
  · rcases hr with rfl | rfl | rfl | rfl <;>
      simp [ek, switchRowsE, keyTable, columnPattern]
  · have h0 := e0 (by omega)
    rcases hr with rfl | rfl | rfl | rfl <;>
      simp [h0, ek, switchRowsE, switchRowsD, keyTable, columnPattern]
  · have h0 := e0 (by omega)
    have h1 := e1 (by omega)
    rcases hr with rfl | rfl | rfl | rfl <;>
      simp [h0, h1, ek, switchRowsE, switchRowsD, switchRowsB, keyTable, columnPattern]
  · have h0 := e0 (by omega)
    have h1 := e1 (by omega)
    have h2 := e2 (by omega)
    rcases hr with rfl | rfl | rfl | rfl <;>
      simp [h0, h1, h2, ek, switchRowsE, switchRowsD, switchRowsB, switchRows7, keyTable,
        columnPattern]

/-- Witness of C1: readings `0xF` at column `0xE`, then `0xE` at column `0xD`, give 14. -/
theorem KYPD_Scan_returns_table_cell_witness :
    (KYPD_Scan (fun n => if n = 0 then 0xF0 else 0xE0)).ret = keyTable (columnPattern 1) 0xE ∧
      keyTable (columnPattern 1) 0xE ≠ none ∧ keyTable (columnPattern 1) 0xE = some 14 :=
  ⟨(KYPD_Scan_returns_table_cell (fun n => if n = 0 then 0xF0 else 0xE0) 1 0xE (by decide)
      (by decide) (by intro j hj; interval_cases j <;> decide)
      (by intro j hj; interval_cases j; decide) (by decide)).1,
   (KYPD_Scan_returns_table_cell (fun n => if n = 0 then 0xF0 else 0xE0) 1 0xE (by decide)
      (by decide) (by intro j hj; interval_cases j <;> decide)
      (by intro j hj; interval_cases j; decide) (by decide)).2,
   by decide⟩

/-- C2, at a failing input: the first value read is `0xC0`, whose row reading `0xC` is
none of `0xE, 0xD, 0xB, 0x7` (and not `0xF`), so (column `0xE`, row `0xC`) is no table
cell; `KYPD_Scan` nevertheless returns key code 0 at the first step, after one write and
one read, because `key` still holds its initial value `0x0`. The same reading at steps 2
to 4 (after `0xF` at step 1) is skipped: the scan goes through all four steps. -/
theorem KYPD_Scan_first_step_unmatched_row_returns_zero :
    rowReading 0xC0 = 0xC ∧ keyTable (columnPattern 0) 0xC = none ∧
      KYPD_Scan (fun _ => 0xC0) =
        ⟨some 0, [Op.discreteWrite KEYPAD_CHANNEL 0xe, Op.discreteRead KEYPAD_CHANNEL]⟩ ∧
      KYPD_Scan (fun n => if n = 0 then 0xF0 else 0xC0) =
        ⟨none, pairsOf [0xe, 0x1d, 0x1b, 0x17]⟩ := by
  decide

/-- C3, at a failing input: every value read is `0xF0` (row reading `0xF` at all four
steps). `KYPD_Scan` makes four write/read pairs and then ends without executing
`return`, so the call has no defined value: the handler writes to the LED channel whatever
value `undef` the call happens to yield, for instance the key code 14. -/
theorem KYPD_Scan_full_sweep_no_return :
    rowsOf 0xF0 = 0xF ∧
      (KYPD_Scan (fun _ => 0xF0)).ret = none ∧
      (KYPD_Scan (fun _ => 0xF0)).ops.length = 8 ∧
      writtenTo LED_CHANNEL (KYPD_Intr_Handler ⟨0, 0, 2, 2⟩ (fun _ => 0xF0) 14) = [14] := by
  decide

/-- C4, at a failing input: every value read is `0xF0`. The values passed to the writes
of the keypad channel are `0xE, 0x1D, 0x1B, 0x17`, not `0xE, 0xD, 0xB, 0x7`: `cols` is
masked to four bits only after the write. Their low four bits are `0xE, 0xD, 0xB, 0x7`. -/
theorem KYPD_Scan_full_sweep_written_values :
    writtenTo KEYPAD_CHANNEL (KYPD_Scan (fun _ => 0xF0)).ops = [0xE, 0x1D, 0x1B, 0x17] ∧
      writtenTo KEYPAD_CHANNEL (KYPD_Scan (fun _ => 0xF0)).ops ≠ [0xE, 0xD, 0xB, 0x7] ∧
      (writtenTo KEYPAD_CHANNEL (KYPD_Scan (fun _ => 0xF0)).ops).map (fun c => c &&& 0xF)
        = [0xE, 0xD, 0xB, 0x7] := by
  decide

/-- First match wins when the first row reading is one the first switch knows: for 8-bit
read values whose first row reading is one of `0xF, 0xE, 0xD, 0xB, 0x7`, if `k` (counted
from 0) is the first column step that finds a key code in the table, the scan returns that
table code and its trace is exactly `k + 1` (column write, register read) pairs; if no step
finds one, the trace is exactly 4 pairs and no `return` is executed. -/
theorem KYPD_Scan_first_table_match_wins (rd : Nat → Nat) (h8 : ∀ j, j < 4 → rd j < 256)
    (hfirst : rowReading (rd 0) ∈ [0xF, 0xE, 0xD, 0xB, 0x7]) :
    (∀ k, k < 4 → (∀ j, j < k → ¬ tableMatchAt rd j) → tableMatchAt rd k →
        (KYPD_Scan rd).ret = keyTable (columnPattern k) (rowReading (rd k)) ∧
        (KYPD_Scan rd).ops = pairsOf ([0xe, 0x1d, 0x1b, 0x17].take (k + 1))) ∧
      ((∀ j, j < 4 → ¬ tableMatchAt rd j) →
        (KYPD_Scan rd).ret = none ∧
        (KYPD_Scan rd).ops = pairsOf [0xe, 0x1d, 0x1b, 0x17]) := by
  have e0 := rowsOf_eq_rowReading (rd 0) (h8 0 (by omega))
  have e1 := rowsOf_eq_rowReading (rd 1) (h8 1 (by omega))
  have e2 := rowsOf_eq_rowReading (rd 2) (h8 2 (by omega))
  have e3 := rowsOf_eq_rowReading (rd 3) (h8 3 (by omega))
  obtain ⟨E1, E2⟩ := table_step_E _ (rowReading_lt (rd 0))
  obtain ⟨D1, D2⟩ := table_step_D _ (rowReading_lt (rd 1))
  obtain ⟨B1, B2⟩ := table_step_B _ (rowReading_lt (rd 2))
  obtain ⟨S1, S2⟩ := table_step_7 _ (rowReading_lt (rd 3))
  have m0 : tableMatchAt rd 0 ↔ keyTable 0xE (rowReading (rd 0)) ≠ none := Iff.rfl
  have m1 : tableMatchAt rd 1 ↔ keyTable 0xD (rowReading (rd 1)) ≠ none := Iff.rfl
  have m2 : tableMatchAt rd 2 ↔ keyTable 0xB (rowReading (rd 2)) ≠ none := Iff.rfl
  have m3 : tableMatchAt rd 3 ↔ keyTable 0x7 (rowReading (rd 3)) ≠ none := Iff.rfl
  have c0 : columnPattern 0 = 0xE := rfl
  have c1 : columnPattern 1 = 0xD := rfl
  have c2 : columnPattern 2 = 0xB := rfl
  have c3 : columnPattern 3 = 0x7 := rfl
  have n0 : ¬ tableMatchAt rd 0 → switchRowsE (rowReading (rd 0) : Int) 0 = 0x10 :=
    fun h => E2 (not_not.mp (fun hn => h (m0.mpr hn))) hfirst
  have n1 : ¬ tableMatchAt rd 1 → switchRowsD (rowReading (rd 1) : Int) 0x10 = 0x10 :=
    fun h => D2 (not_not.mp (fun hn => h (m1.mpr hn)))
  have n2 : ¬ tableMatchAt rd 2 → switchRowsB (rowReading (rd 2) : Int) 0x10 = 0x10 :=
    fun h => B2 (not_not.mp (fun hn => h (m2.mpr hn)))
  have n3 : ¬ tableMatchAt rd 3 → switchRows7 (rowReading (rd 3) : Int) 0x10 = 0x10 :=
    fun h => S2 (not_not.mp (fun hn => h (m3.mpr hn)))
  rw [KYPD_Scan_unfold, e0, e1, e2, e3]
  constructor
  · intro k hk hprev hmatch
    interval_cases k
    · obtain ⟨hv, hne⟩ := E1 (m0.mp hmatch)
      rw [if_pos hne, c0]
      exact ⟨hv, rfl⟩
    · have a0 := n0 (hprev 0 (by omega))
      obtain ⟨hv, hne⟩ := D1 (m1.mp hmatch)
      rw [if_neg (not_not.mpr a0), if_pos hne, c1]
      exact ⟨hv, rfl⟩
    · have a0 := n0 (hprev 0 (by omega))
      have a1 := n1 (hprev 1 (by omega))
      obtain ⟨hv, hne⟩ := B1 (m2.mp hmatch)
      rw [if_neg (not_not.mpr a0), if_neg (not_not.mpr a1), if_pos hne, c2]
      exact ⟨hv, rfl⟩
    · have a0 := n0 (hprev 0 (by omega))
      have a1 := n1 (hprev 1 (by omega))
      have a2 := n2 (hprev 2 (by omega))
      obtain ⟨hv, hne⟩ := S1 (m3.mp hmatch)
      rw [if_neg (not_not.mpr a0), if_neg (not_not.mpr a1), if_neg (not_not.mpr a2),
        if_pos hne, c3]
      exact ⟨hv, rfl⟩
  · intro hnone
    have a0 := n0 (hnone 0 (by omega))
    have a1 := n1 (hnone 1 (by omega))
    have a2 := n2 (hnone 2 (by omega))
    have a3 := n3 (hnone 3 (by omega))
    rw [if_neg (not_not.mpr a0), if_neg (not_not.mpr a1), if_neg (not_not.mpr a2),
      if_neg (not_not.mpr a3)]
    exact ⟨rfl, rfl⟩

/-- An instance of the first-match rule: row reading `0xF` at column `0xE`, then a key in
column `0xD` (row reading `0xE`, key 14) and a key in column `0xB` (row reading `0xD`,
key 8): the scan returns the key of the earlier column after two pairs. -/
theorem KYPD_Scan_first_table_match_wins_instance :
    (KYPD_Scan (fun n => if n = 0 then 0xF0 else if n = 1 then 0xE0 else 0xD0)).ret =
        keyTable (columnPattern 1)
          (rowReading ((fun n => if n = 0 then 0xF0 else if n = 1 then 0xE0 else 0xD0) 1)) ∧
      (KYPD_Scan (fun n => if n = 0 then 0xF0 else if n = 1 then 0xE0 else 0xD0)).ops =
        pairsOf ([0xe, 0x1d, 0x1b, 0x17].take (1 + 1)) :=
  (KYPD_Scan_first_table_match_wins
      (fun n => if n = 0 then 0xF0 else if n = 1 then 0xE0 else 0xD0)
      (by intro j hj; interval_cases j <;> decide) (by decide)).1 1 (by decide)
    (by intro j hj; interval_cases j; decide) (by decide)

/-- C5, at a failing input: the values read are `0xC0`, then `0xE0`. Step 1 (column
`0xE`, row reading `0xC`) finds no key code in the table; step 2 (column `0xD`, row
reading `0xE`) is the first that does, with key code 14. The scan nevertheless returns 0
after a single (write, read) pair, because `key` still holds its initial value `0x0`
when `if(key!=0x10)` is tested: the first match does not win. On readings the first
switch knows, the first match wins in every column: a key in column `0xE` beats one in
`0xD`, one in `0xD` beats one in `0xB`, and one in `0xB` beats one in `0x7`. -/
theorem KYPD_Scan_stale_key_preempts_first_match :
    (¬ tableMatchAt (fun n => if n = 0 then 0xC0 else 0xE0) 0 ∧
      tableMatchAt (fun n => if n = 0 then 0xC0 else 0xE0) 1 ∧
      keyTable (columnPattern 1) (rowReading ((fun n => if n = 0 then 0xC0 else 0xE0) 1))
        = some 14 ∧
      KYPD_Scan (fun n => if n = 0 then 0xC0 else 0xE0) = ⟨some 0, pairsOf [0xe]⟩ ∧
      KYPD_Scan (fun n => if n = 0 then 0xC0 else 0xE0) ≠ ⟨some 14, pairsOf [0xe, 0x1d]⟩) ∧
    (KYPD_Scan (fun n => if n = 0 then 0xD0 else 0xE0) = ⟨some 12, pairsOf [0xe]⟩ ∧
      KYPD_Scan (fun n => if n = 0 then 0xF0 else if n = 1 then 0xE0 else 0xD0)
        = ⟨some 14, pairsOf [0xe, 0x1d]⟩ ∧
      KYPD_Scan (fun n => if n ≤ 1 then 0xF0 else if n = 2 then 0xE0 else 0xD0)
        = ⟨some 15, pairsOf [0xe, 0x1d, 0x1b]⟩ ∧
      KYPD_Scan (fun n => if n ≤ 2 then 0xF0 else 0xD0)
        = ⟨some 7, pairsOf [0xe, 0x1d, 0x1b, 0x17]⟩) := by
  decide

/-- C10: for every sequence of read values, whenever `KYPD_Scan` returns a key code, the
code lies in `[0, 15]`; the internal sentinel `0x10` is never returned. -/
theorem KYPD_Scan_key_code_range (rd : Nat → Nat) (key : Nat)
    (h : (KYPD_Scan rd).ret = some key) : 0 ≤ key ∧ key ≤ 15 ∧ key ≠ 0x10 := by
  rw [KYPD_Scan_unfold] at h
  split_ifs at h with h0 h1 h2 h3
  · have hb := switchRowsE_le (rowsOf (rd 0)) 0 (by omega)
    simp only [Option.some.injEq] at h
    omega
  · have hb := switchRowsD_le (rowsOf (rd 1)) 0x10 (by omega)
    simp only [Option.some.injEq] at h
    omega
  · have hb := switchRowsB_le (rowsOf (rd 2)) 0x10 (by omega)
    simp only [Option.some.injEq] at h
    omega
  · have hb := switchRows7_le (rowsOf (rd 3)) 0x10 (by omega)
    simp only [Option.some.injEq] at h
    omega

/-- Witness of C10: the scan of the readings `0xF`, `0xE` returns 14, which is in range. -/
theorem KYPD_Scan_key_code_range_witness :
    (KYPD_Scan (fun n => if n = 0 then 0xF0 else 0xE0)).ret = some 14 ∧
      (0 ≤ 14 ∧ 14 ≤ 15 ∧ 14 ≠ 0x10) :=
  ⟨by decide, KYPD_Scan_key_code_range (fun n => if n = 0 then 0xF0 else 0xE0) 14 (by decide)⟩

/-! ## The interrupt handler -/

/-- C6: if the interrupt status read after the disable does not have the keypad channel
mask bit set, the handler returns after the disable and the status read: no column write,
no register read, no write to the LED output, no interrupt clear and no interrupt enable;
the registers differ from the entry state only in that the keypad interrupt source is
disabled. -/
theorem KYPD_Intr_Handler_unconfirmed_status (g : XGpio) (rd : Nat → Nat) (undef : Nat)
    (h : ¬ statusConfirmed g) :
    KYPD_Intr_Handler g rd undef =
        [Op.interruptDisable KYPD_INT_MASK, Op.interruptGetStatus] ∧
      (KYPD_Intr_Handler g rd undef).countP (Op.isWriteTo KEYPAD_CHANNEL) = 0 ∧
      (KYPD_Intr_Handler g rd undef).countP Op.isRead = 0 ∧
      (KYPD_Intr_Handler g rd undef).countP (Op.isWriteTo LED_CHANNEL) = 0 ∧
      (KYPD_Intr_Handler g rd undef).countP Op.isClear = 0 ∧
      (KYPD_Intr_Handler g rd undef).countP Op.isEnable = 0 ∧
      (exec g (KYPD_Intr_Handler g rd undef)).data1 = g.data1 ∧
      (exec g (KYPD_Intr_Handler g rd undef)).data2 = g.data2 ∧
      (exec g (KYPD_Intr_Handler g rd undef)).isr = g.isr ∧
      kypdDisabled (exec g (KYPD_Intr_Handler g rd undef)) ∧
      (∀ i, i < 32 → i ≠ 1 →
        (exec g (KYPD_Intr_Handler g rd undef)).ier.testBit i = g.ier.testBit i) := by
  rw [handler_early g rd undef h]
  refine ⟨rfl, rfl, rfl, rfl, rfl, rfl, rfl, rfl, rfl, ?_, ?_⟩
  · exact disable_disabled g
  · intro i hi h1
    exact disable_other_bits g i hi h1

/-- Witness of C6: entry with the source enabled and only the channel 1 status bit set. -/
theorem KYPD_Intr_Handler_unconfirmed_status_witness :
    KYPD_Intr_Handler ⟨5, 0xe, 3, 1⟩ (fun _ => 0xE0) 0 =
        [Op.interruptDisable KYPD_INT_MASK, Op.interruptGetStatus] ∧
      exec ⟨5, 0xe, 3, 1⟩ (KYPD_Intr_Handler ⟨5, 0xe, 3, 1⟩ (fun _ => 0xE0) 0) = ⟨5, 0xe, 1, 1⟩ :=
  ⟨(KYPD_Intr_Handler_unconfirmed_status ⟨5, 0xe, 3, 1⟩ (fun _ => 0xE0) 0 (by decide)).1,
    by decide⟩

/-- C7: when the status read has the keypad channel mask bit set, one invocation of the
handler performs, in this order and each exactly once: interrupt disable (keypad mask),
status read, the write/read steps of the scan, one write to the LED output, interrupt
clear (keypad mask), interrupt enable (keypad mask), and ends with the source enabled.
Two such invocations in sequence contain exactly two disables and two enables,
alternating disable, enable, disable, enable. -/
theorem KYPD_Intr_Handler_protocol (g g' : XGpio) (rd rd' : Nat → Nat) (undef undef' : Nat)
    (h : statusConfirmed g) (h' : statusConfirmed g') :
    KYPD_Intr_Handler g rd undef =
        [Op.interruptDisable KYPD_INT_MASK, Op.interruptGetStatus] ++ (KYPD_Scan rd).ops ++
          [Op.discreteWrite LED_CHANNEL ((KYPD_Scan rd).ret.getD undef),
           Op.interruptClear KYPD_INT_MASK, Op.interruptEnable KYPD_INT_MASK] ∧
      (KYPD_Intr_Handler g rd undef).countP Op.isDisable = 1 ∧
      (KYPD_Intr_Handler g rd undef).countP Op.isGetStatus = 1 ∧
      (KYPD_Intr_Handler g rd undef).countP (Op.isWriteTo LED_CHANNEL) = 1 ∧
      (KYPD_Intr_Handler g rd undef).countP Op.isClear = 1 ∧
      (KYPD_Intr_Handler g rd undef).countP Op.isEnable = 1 ∧
      kypdEnabled (exec g (KYPD_Intr_Handler g rd undef)) ∧
      (KYPD_Intr_Handler g rd undef ++ KYPD_Intr_Handler g' rd' undef').filter
          (fun op => op.isDisable || op.isEnable) =
        [Op.interruptDisable KYPD_INT_MASK, Op.interruptEnable KYPD_INT_MASK,
         Op.interruptDisable KYPD_INT_MASK, Op.interruptEnable KYPD_INT_MASK] := by
  obtain ⟨m, hm1, hm4, hm⟩ := KYPD_Scan_ops_pairs rd
  obtain ⟨m', hm1', hm4', hm'⟩ := KYPD_Scan_ops_pairs rd'
  refine ⟨handler_confirmed g rd undef h, ?_, ?_, ?_, ?_, ?_, ?_, ?_⟩
  · rw [handler_confirmed g rd undef h, hm]
    interval_cases m <;> rfl
  · rw [handler_confirmed g rd undef h, hm]
    interval_cases m <;> rfl
  · rw [handler_confirmed g rd undef h, hm]
    interval_cases m <;> rfl
  · rw [handler_confirmed g rd undef h, hm]
    interval_cases m <;> rfl
  · rw [handler_confirmed g rd undef h, hm]
    interval_cases m <;> rfl
  · rw [handler_confirmed g rd undef h]
    have e : ([Op.interruptDisable KYPD_INT_MASK, Op.interruptGetStatus] ++ (KYPD_Scan rd).ops ++
          [Op.discreteWrite LED_CHANNEL ((KYPD_Scan rd).ret.getD undef),
           Op.interruptClear KYPD_INT_MASK, Op.interruptEnable KYPD_INT_MASK]) =
        ([Op.interruptDisable KYPD_INT_MASK, Op.interruptGetStatus] ++ (KYPD_Scan rd).ops ++
          [Op.discreteWrite LED_CHANNEL ((KYPD_Scan rd).ret.getD undef),
           Op.interruptClear KYPD_INT_MASK]) ++ [Op.interruptEnable KYPD_INT_MASK] := by
      simp
    rw [e, exec_append]
    exact enable_enabled _
  · rw [handler_confirmed g rd undef h, handler_confirmed g' rd' undef' h', hm, hm']
    interval_cases m <;> interval_cases m' <;> rfl

/-- Witness of C7: two invocations with different key patterns (key 14, then key 1). -/
theorem KYPD_Intr_Handler_protocol_witness :
    (KYPD_Intr_Handler ⟨0, 0, 2, 2⟩ (fun n => if n = 0 then 0xF0 else 0xE0) 0 ++
        KYPD_Intr_Handler ⟨14, 0x1d, 2, 3⟩ (fun n => if n = 3 then 0x70 else 0xF0) 0).filter
          (fun op => op.isDisable || op.isEnable) =
        [Op.interruptDisable KYPD_INT_MASK, Op.interruptEnable KYPD_INT_MASK,
         Op.interruptDisable KYPD_INT_MASK, Op.interruptEnable KYPD_INT_MASK] :=
  (KYPD_Intr_Handler_protocol ⟨0, 0, 2, 2⟩ ⟨14, 0x1d, 2, 3⟩
    (fun n => if n = 0 then 0xF0 else 0xE0) (fun n => if n = 3 then 0x70 else 0xF0) 0 0
    (by decide) (by decide)).2.2.2.2.2.2.2

/-- C8: the keypad interrupt-enable bit as explicit state updated by each handler step.
The disable is the first call and no later call is a disable; an enable can only be the
last call. Every call other than the disable starts with the source disabled, and every
call other than the enable ends with the source disabled: so at every intermediate state
after the disable and before the enable (every column write, register read, LED write and
interrupt clear) the source is disabled, for every entry state and every read values. -/
theorem KYPD_Intr_Handler_disabled_mid_service (g : XGpio) (rd : Nat → Nat) (undef : Nat) :
    (KYPD_Intr_Handler g rd undef).head? = some (Op.interruptDisable KYPD_INT_MASK) ∧
      (∀ op ∈ (KYPD_Intr_Handler g rd undef).tail, op.isDisable = false) ∧
      (∀ op ∈ (KYPD_Intr_Handler g rd undef).dropLast, op.isEnable = false) ∧
      (∀ t ∈ steps g (KYPD_Intr_Handler g rd undef),
        (t.2.1.isDisable = false → kypdDisabled t.1) ∧
        (t.2.1.isEnable = false → kypdDisabled t.2.2)) := by
  by_cases h : statusConfirmed g
  · have hmid := handler_mid_keepsIer rd ((KYPD_Scan rd).ret.getD undef)
    have hg1 := disable_disabled g
    rw [handler_confirmed_split g rd undef h]
    refine ⟨rfl, ?_, ?_, ?_⟩
    · intro op hop
      have ht : ([Op.interruptDisable KYPD_INT_MASK] ++
          ([Op.interruptGetStatus] ++ (KYPD_Scan rd).ops ++
            [Op.discreteWrite LED_CHANNEL ((KYPD_Scan rd).ret.getD undef),
             Op.interruptClear KYPD_INT_MASK]) ++
          [Op.interruptEnable KYPD_INT_MASK]).tail =
          ([Op.interruptGetStatus] ++ (KYPD_Scan rd).ops ++
            [Op.discreteWrite LED_CHANNEL ((KYPD_Scan rd).ret.getD undef),
             Op.interruptClear KYPD_INT_MASK]) ++ [Op.interruptEnable KYPD_INT_MASK] := rfl
      rw [ht] at hop
      rcases List.mem_append.mp hop with hop | hop
      · exact keepsIer_isDisable op (hmid op hop)
      · rcases List.mem_singleton.mp hop with rfl
        rfl
    · intro op hop
      rw [List.dropLast_concat] at hop
      rcases List.mem_append.mp hop with hop | hop
      · rcases List.mem_singleton.mp hop with rfl
        rfl
      · exact keepsIer_isEnable op (hmid op hop)
    · intro t ht
      rw [steps_append, steps_append] at ht
      rcases List.mem_append.mp ht with ht | ht
      · rcases List.mem_append.mp ht with ht | ht
        · rcases List.mem_singleton.mp ht with rfl
          exact ⟨fun hc => by simp [Op.isDisable] at hc, fun _ => hg1⟩
        · have hk := steps_keepsIer _ _ hmid t ht
          exact ⟨fun _ => kypdDisabled_of_ier _ _ hk.1 hg1,
            fun _ => kypdDisabled_of_ier _ _ hk.2 hg1⟩
      · rcases List.mem_singleton.mp ht with rfl
        refine ⟨fun _ => ?_, fun hc => by simp [Op.isEnable] at hc⟩
        rw [exec_append]
        exact kypdDisabled_of_ier _ _ (exec_keepsIer _ _ hmid) hg1
  · have hg1 := disable_disabled g
    rw [handler_early g rd undef h]
    refine ⟨rfl, ?_, ?_, ?_⟩
    · intro op hop
      rcases List.mem_singleton.mp hop with rfl
      rfl
    · intro op hop
      rcases List.mem_singleton.mp hop with rfl
      rfl
    · intro t ht
      rcases List.mem_cons.mp ht with rfl | ht
      · exact ⟨fun hc => by simp [Op.isDisable] at hc, fun _ => hg1⟩
      · rcases List.mem_singleton.mp ht with rfl
        exact ⟨fun _ => hg1, fun _ => hg1⟩

/-- Witness of C8: entered with the source enabled, the handler is in a state with the
source disabled right after its second column write. -/
theorem KYPD_Intr_Handler_disabled_mid_service_witness :
    kypdEnabled ⟨0, 0, 2, 2⟩ ∧ kypdDisabled ⟨0, 0x1d, 0, 2⟩ :=
  ⟨by decide,
    ((KYPD_Intr_Handler_disabled_mid_service ⟨0, 0, 2, 2⟩
        (fun n => if n = 0 then 0xF0 else 0xE0) 0).2.2.2
      (⟨0, 0xe, 0, 2⟩, Op.discreteWrite KEYPAD_CHANNEL 0x1d, ⟨0, 0x1d, 0, 2⟩) (by decide)).2
      (by decide)⟩

/-- C9: on the confirmed-status path, when the scan returns a key code, the single value
the handler writes to the LED channel (channel 1) is that key code, which becomes the
content of the channel 1 data register; the only writes to the keypad channel (channel 2)
are the column writes of the scan. -/
theorem KYPD_Intr_Handler_led_value (g : XGpio) (rd : Nat → Nat) (undef key : Nat)
    (h : statusConfirmed g) (hk : (KYPD_Scan rd).ret = some key) :
    KYPD_Intr_Handler g rd undef =
        [Op.interruptDisable KYPD_INT_MASK, Op.interruptGetStatus] ++ (KYPD_Scan rd).ops ++
          [Op.discreteWrite LED_CHANNEL key,
           Op.interruptClear KYPD_INT_MASK, Op.interruptEnable KYPD_INT_MASK] ∧
      writtenTo LED_CHANNEL (KYPD_Intr_Handler g rd undef) = [key] ∧
      writtenTo KEYPAD_CHANNEL (KYPD_Intr_Handler g rd undef) =
        writtenTo KEYPAD_CHANNEL (KYPD_Scan rd).ops ∧
      LED_CHANNEL = 1 ∧ KEYPAD_CHANNEL = 2 ∧
      (exec g (KYPD_Intr_Handler g rd undef)).data1 = key := by
  obtain ⟨m, hm1, hm4, hm⟩ := KYPD_Scan_ops_pairs rd
  have e := handler_confirmed g rd undef h
  rw [hk, Option.getD_some] at e
  rw [e, hm]
  refine ⟨rfl, ?_, ?_, rfl, rfl, ?_⟩
  · interval_cases m <;> rfl
  · interval_cases m <;> rfl
  · interval_cases m <;> rfl

/-- Witness of C9: row reading `0xF` at column `0xE`, then row reading `0xE` at column
`0xD`, makes the handler write 14 to the LEDs. -/
theorem KYPD_Intr_Handler_led_value_witness :
    writtenTo LED_CHANNEL
        (KYPD_Intr_Handler ⟨0, 0, 2, 2⟩ (fun n => if n = 0 then 0xF0 else 0xE0) 7) = [14] ∧
      (exec ⟨0, 0, 2, 2⟩
        (KYPD_Intr_Handler ⟨0, 0, 2, 2⟩ (fun n => if n = 0 then 0xF0 else 0xE0) 7)).data1 = 14 :=
  ⟨(KYPD_Intr_Handler_led_value ⟨0, 0, 2, 2⟩ (fun n => if n = 0 then 0xF0 else 0xE0) 7 14
      (by decide) (by decide)).2.1,
    (KYPD_Intr_Handler_led_value ⟨0, 0, 2, 2⟩ (fun n => if n = 0 then 0xF0 else 0xE0) 7 14
      (by decide) (by decide)).2.2.2.2.2⟩

/-! ## The decode table and the column rotation -/

/-- C11: the decode table of the nested switch of `KYPD_Scan`, restricted to the column
patterns `0xE, 0xD, 0xB, 0x7` and the row patterns `0xE, 0xD, 0xB, 0x7`, is a bijection
from the 16 (column, row) pairs onto the key codes 0 to 15: on these pairs the switch
assigns a code of `[0, 15]` whatever `key` held before (the code of the table of the
specification), distinct pairs get distinct codes, and every code of `[0, 15]` is produced
by exactly one pair. -/
theorem switchCols_table_bijective :
    (∀ c ∈ oneLowPatterns, ∀ r ∈ oneLowPatterns, ∀ key,
        switchCols c (r : Int) key ≤ 15 ∧ some (switchCols c (r : Int) key) = keyTable c r) ∧
      (∀ c ∈ oneLowPatterns, ∀ r ∈ oneLowPatterns, ∀ c' ∈ oneLowPatterns,
        ∀ r' ∈ oneLowPatterns, ∀ key key',
        switchCols c (r : Int) key = switchCols c' (r' : Int) key' → c = c' ∧ r = r') ∧
      (∀ code, code ≤ 15 →
        ∃! p : Nat × Nat, p.1 ∈ oneLowPatterns ∧ p.2 ∈ oneLowPatterns ∧
          ∀ key, switchCols p.1 (p.2 : Int) key = code) := by
  have hrange : ∀ c ∈ oneLowPatterns, ∀ r ∈ oneLowPatterns,
      switchCols c (r : Int) 0 ≤ 15 ∧ some (switchCols c (r : Int) 0) = keyTable c r := by
    decide
  refine ⟨?_, ?_, ?_⟩
  · intro c hc r hr key
    rw [switchCols_key_irrelevant c r hc hr key]
    exact hrange c hc r hr
  · intro c hc r hr c' hc' r' hr' key key' h
    rw [switchCols_key_irrelevant c r hc hr key,
      switchCols_key_irrelevant c' r' hc' hr' key'] at h
    exact switchCols_injective_zero c hc r hr c' hc' r' hr' h
  · intro code hcode
    obtain ⟨c, hc, r, hr, h⟩ := switchCols_onto_zero code (by omega)
    refine ⟨(c, r), ⟨hc, hr, fun key => ?_⟩, ?_⟩
    · rw [show ((c, r) : Nat × Nat).1 = c from rfl, show ((c, r) : Nat × Nat).2 = r from rfl,
        switchCols_key_irrelevant c r hc hr key]
      exact h
    · rintro ⟨c', r'⟩ ⟨hc', hr', h'⟩
      have h0 := h' 0
      simp only at hc' hr' h0
      have := switchCols_injective_zero c' hc' r' hr' c hc r hr (h0.trans h.symm)
      rw [this.1, this.2]

/-- Witness of C11: key code 14 is produced by exactly one (column, row) pair. -/
theorem switchCols_table_bijective_witness :
    ∃! p : Nat × Nat, p.1 ∈ oneLowPatterns ∧ p.2 ∈ oneLowPatterns ∧
      ∀ key, switchCols p.1 (p.2 : Int) key = 14 :=
  switchCols_table_bijective.2.2 14 (by decide)

/-- C12: the column update of `KYPD_Scan` followed by its 4-bit mask equals the circular
left rotation by one position of the 4-bit value `c`, for every `c` in `[0, 15]`; it
preserves the number of zero bits, four applications are the identity, and iterating it
from `0xE` gives the column patterns used for table look-up at the four steps, `0xE`,
`0xD`, `0xB`, `0x7`, each with exactly one bit low. -/
theorem nextCols_is_rotation (rd : Nat → Nat) :
    (∀ c, c < 16 →
        nextCols c = rotl4 c ∧ zeroBits4 (nextCols c) = zeroBits4 c ∧
        nextCols (nextCols (nextCols (nextCols c))) = c) ∧
      (∀ c, c < 16 → ∀ i, i < 4 → (nextCols c).testBit ((i + 1) % 4) = c.testBit i) ∧
      (∀ k, k < 4 →
        maskCols (loopVars rd k).1 = nextCols^[k] 0xE ∧
        nextCols^[k] 0xE = columnPattern k ∧
        zeroBits4 (nextCols^[k] 0xE) = 1) ∧
      [nextCols^[0] 0xE, nextCols^[1] 0xE, nextCols^[2] 0xE, nextCols^[3] 0xE]
        = [0xE, 0xD, 0xB, 0x7] := by
  refine ⟨by decide, by decide, ?_, by decide⟩
  intro k hk
  obtain ⟨c0, c1, c2, c3⟩ := loopVars_cols rd
  interval_cases k
  · rw [c0]; decide
  · rw [c1]; decide
  · rw [c2]; decide
  · rw [c3]; decide

/-- Witness of C12: the update turns `0xD` into `0xB`, the rotation of `1101`. -/
theorem nextCols_is_rotation_witness :
    nextCols 0xD = 0xB ∧
      (nextCols 0xD = rotl4 0xD ∧ zeroBits4 (nextCols 0xD) = zeroBits4 0xD ∧
        nextCols (nextCols (nextCols (nextCols 0xD))) = 0xD) :=
  ⟨by decide, (nextCols_is_rotation (fun _ => 0xF0)).1 0xD (by decide)⟩

/-! ## Setup -/

/-- C13: `IntCInitFunction` returns `XST_SUCCESS` if and only if both the interrupt
controller initialisation and the handler connection return `XST_SUCCESS`, and otherwise
returns `XST_FAILURE`; when the controller initialisation fails it returns before
connecting the handler or enabling any GPIO interrupt, and when the connection fails it
returns before enabling the GPIO interrupt. `main` returns `XST_FAILURE` whenever
`XGpio_Initialize` or `IntCInitFunction` does not return `XST_SUCCESS` (and otherwise
does not return). -/
theorem setup_failure_reporting (gpioStatus cfgStatus connectStatus : Int) :
    ((IntCInitFunction cfgStatus connectStatus).ret = XST_SUCCESS ↔
        cfgStatus = XST_SUCCESS ∧ connectStatus = XST_SUCCESS) ∧
      ((IntCInitFunction cfgStatus connectStatus).ret ≠ XST_SUCCESS →
        (IntCInitFunction cfgStatus connectStatus).ret = XST_FAILURE) ∧
      (cfgStatus ≠ XST_SUCCESS →
        (IntCInitFunction cfgStatus connectStatus).calls =
            [SetupCall.scuGicLookupConfig, SetupCall.scuGicCfgInitialize] ∧
          (IntCInitFunction cfgStatus connectStatus).calls.countP SetupCall.isConnect = 0 ∧
          (IntCInitFunction cfgStatus connectStatus).calls.countP
            SetupCall.enablesGpioInterrupt = 0) ∧
      (cfgStatus = XST_SUCCESS → connectStatus ≠ XST_SUCCESS →
        (IntCInitFunction cfgStatus connectStatus).calls =
            [SetupCall.scuGicLookupConfig, SetupCall.scuGicCfgInitialize,
             SetupCall.exceptionRegisterHandler, SetupCall.exceptionEnable,
             SetupCall.scuGicConnect] ∧
          (IntCInitFunction cfgStatus connectStatus).calls.countP
            SetupCall.enablesGpioInterrupt = 0) ∧
      (gpioStatus ≠ XST_SUCCESS →
        (main gpioStatus cfgStatus connectStatus).ret = some XST_FAILURE) ∧
      (gpioStatus = XST_SUCCESS →
        (IntCInitFunction cfgStatus connectStatus).ret ≠ XST_SUCCESS →
        (main gpioStatus cfgStatus connectStatus).ret = some XST_FAILURE) ∧
      ((main gpioStatus cfgStatus connectStatus).ret = some XST_FAILURE ↔
        gpioStatus ≠ XST_SUCCESS ∨
          (IntCInitFunction cfgStatus connectStatus).ret ≠ XST_SUCCESS) := by
  have hsf : XST_SUCCESS ≠ XST_FAILURE := by decide
  by_cases hc : cfgStatus = XST_SUCCESS
  · by_cases hn : connectStatus = XST_SUCCESS
    · have e : IntCInitFunction cfgStatus connectStatus =
          ⟨XST_SUCCESS, [SetupCall.scuGicLookupConfig, SetupCall.scuGicCfgInitialize,
            SetupCall.exceptionRegisterHandler, SetupCall.exceptionEnable,
            SetupCall.scuGicConnect, SetupCall.gpioInterruptEnable KYPD_INT_MASK,
            SetupCall.gpioInterruptGlobalEnable, SetupCall.scuGicEnable]⟩ := by
        unfold IntCInitFunction
        rw [if_neg (not_not.mpr hc), if_neg (not_not.mpr hn)]
        rfl
      by_cases hg : gpioStatus = XST_SUCCESS
      · have m : (main gpioStatus cfgStatus connectStatus).ret = none := by
          unfold main
          rw [if_neg (not_not.mpr hg), e]
          rfl
        rw [m, e]
        simp [hc, hn, hg]
      · have m : (main gpioStatus cfgStatus connectStatus).ret = some XST_FAILURE := by
          unfold main
          rw [if_pos hg]
        rw [m, e]
        simp [hc, hn, hg]
    · have e : IntCInitFunction cfgStatus connectStatus =
          ⟨XST_FAILURE, [SetupCall.scuGicLookupConfig, SetupCall.scuGicCfgInitialize,
            SetupCall.exceptionRegisterHandler, SetupCall.exceptionEnable,
            SetupCall.scuGicConnect]⟩ := by
        unfold IntCInitFunction
        rw [if_neg (not_not.mpr hc), if_pos hn]
        rfl
      have m : (main gpioStatus cfgStatus connectStatus).ret = some XST_FAILURE := by
        unfold main
        by_cases hg : gpioStatus = XST_SUCCESS
        · rw [if_neg (not_not.mpr hg), e]
          rfl
        · rw [if_pos hg]
      rw [m, e]
      refine ⟨?_, ?_, ?_, ?_, ?_, ?_, ?_⟩
      · simp [hc, hn, hsf.symm]
      · intro _; rfl
      · intro h; exact absurd hc h
      · intro _ _; exact ⟨rfl, rfl⟩
      · intro _; rfl
      · intro _ _; rfl
      · simp [hsf.symm]
  · have e : IntCInitFunction cfgStatus connectStatus =
        ⟨XST_FAILURE, [SetupCall.scuGicLookupConfig, SetupCall.scuGicCfgInitialize]⟩ := by
      unfold IntCInitFunction
      rw [if_pos hc]
    have m : (main gpioStatus cfgStatus connectStatus).ret = some XST_FAILURE := by
      unfold main
      by_cases hg : gpioStatus = XST_SUCCESS
      · rw [if_neg (not_not.mpr hg), e]
        rfl
      · rw [if_pos hg]
    rw [m, e]
    refine ⟨?_, ?_, ?_, ?_, ?_, ?_, ?_⟩
    · simp [hc, hsf.symm]
    · intro _; rfl
    · intro _; exact ⟨rfl, rfl, rfl⟩
    · intro h; exact absurd h hc
    · intro _; rfl
    · intro _ _; rfl
    · simp [hsf.symm]

/-- Witness of C13: the handler connection fails with status 1; the GPIO is initialised
and the controller too, `IntCInitFunction` stops after the connection attempt and `main`
returns `XST_FAILURE`. -/
theorem setup_failure_reporting_witness :
    (IntCInitFunction 0 1).calls =
        [SetupCall.scuGicLookupConfig, SetupCall.scuGicCfgInitialize,
         SetupCall.exceptionRegisterHandler, SetupCall.exceptionEnable,
         SetupCall.scuGicConnect] ∧
      (IntCInitFunction 0 1).calls.countP SetupCall.enablesGpioInterrupt = 0 ∧
      (main 0 0 1).ret = some XST_FAILURE :=
  ⟨((setup_failure_reporting 0 0 1).2.2.2.1 (by decide) (by decide)).1,
    ((setup_failure_reporting 0 0 1).2.2.2.1 (by decide) (by decide)).2,
    (setup_failure_reporting 0 0 1).2.2.2.2.2.1 (by decide) (by decide)⟩

/-! ## Implicit behaviour of the scan and of `Delay` -/

/-- C14: with `r1..r4` the 4-bit row readings of steps 1 to 4 taken from 8-bit read
values, `KYPD_Scan` returns key code 0 exactly when either `r1` is none of
`0xF, 0xE, 0xD, 0xB, 0x7` (then after one write/read), or `r1 = 0xF`, `r2` and `r3` are
not in `0xE, 0xD, 0xB, 0x7`, and `r4 = 0xE`. In steps 2 to 4 a row reading outside
`0xE, 0xD, 0xB, 0x7` is treated exactly like `0xF`: replacing it by `0xF` changes neither
the result nor the trace. -/
theorem KYPD_Scan_returns_zero_iff (rd : Nat → Nat) (h8 : ∀ j, j < 4 → rd j < 256) :
    ((KYPD_Scan rd).ret = some 0 ↔
        rowReading (rd 0) ∉ [0xF, 0xE, 0xD, 0xB, 0x7] ∨
        (rowReading (rd 0) = 0xF ∧ rowReading (rd 1) ∉ oneLowPatterns ∧
          rowReading (rd 2) ∉ oneLowPatterns ∧ rowReading (rd 3) = 0xE)) ∧
      (rowReading (rd 0) ∉ [0xF, 0xE, 0xD, 0xB, 0x7] →
        KYPD_Scan rd = ⟨some 0, stepOps 0xe⟩) ∧
      (∀ rd' : Nat → Nat, (∀ j, j < 4 → rd' j < 256) →
        rowReading (rd' 0) = rowReading (rd 0) →
        (∀ j, 1 ≤ j → j < 4 → rowReading (rd' j) = skippedAsF (rowReading (rd j))) →
        KYPD_Scan rd' = KYPD_Scan rd) := by
  have e0 := rowsOf_eq_rowReading (rd 0) (h8 0 (by omega))
  have e1 := rowsOf_eq_rowReading (rd 1) (h8 1 (by omega))
  have e2 := rowsOf_eq_rowReading (rd 2) (h8 2 (by omega))
  have e3 := rowsOf_eq_rowReading (rd 3) (h8 3 (by omega))
  obtain ⟨E1, E2⟩ := switchRowsE_first_step _ (rowReading_lt (rd 0))
  obtain ⟨D1, D2, D3⟩ := switchRowsD_later_step _ (rowReading_lt (rd 1))
  obtain ⟨B1, B2, B3⟩ := switchRowsB_later_step _ (rowReading_lt (rd 2))
  obtain ⟨S1, S2, S3⟩ := switchRows7_later_step _ (rowReading_lt (rd 3))
  refine ⟨?_, ?_, ?_⟩
  · rw [KYPD_Scan_unfold, e0, e1, e2, e3]
    by_cases a : switchRowsE (rowReading (rd 0) : Int) 0 = 0x10
    · have a0 : rowReading (rd 0) = 0xF := E1.mp a
      have a1 : ¬ rowReading (rd 0) ∉ [0xF, 0xE, 0xD, 0xB, 0x7] := by
        rw [a0]; decide
      rw [if_neg (not_not.mpr a)]
      by_cases b : switchRowsD (rowReading (rd 1) : Int) 0x10 = 0x10
      · rw [if_neg (not_not.mpr b)]
        by_cases c : switchRowsB (rowReading (rd 2) : Int) 0x10 = 0x10
        · rw [if_neg (not_not.mpr c)]
          by_cases d : switchRows7 (rowReading (rd 3) : Int) 0x10 = 0x10
          · rw [if_neg (not_not.mpr d)]
            have d0 : rowReading (rd 3) ≠ 0xE := fun h => by
              rw [S2.mpr h] at d; exact absurd d (by decide)
            constructor
            · intro h; cases h
            · rintro (h | ⟨_, _, _, h⟩)
              · exact absurd h a1
              · exact absurd h d0
          · rw [if_pos d]
            constructor
            · intro h
              exact Or.inr ⟨a0, D1.mp b, B1.mp c, S2.mp (Option.some.inj h)⟩
            · rintro (h | ⟨_, _, _, h⟩)
              · exact absurd h a1
              · exact congrArg some (S2.mpr h)
        · rw [if_pos c]
          constructor
          · intro h; exact absurd (Option.some.inj h) B2
          · rintro (h | ⟨_, _, h, _⟩)
            · exact absurd h a1
            · exact absurd (B1.mpr h) c
      · rw [if_pos b]
        constructor
        · intro h; exact absurd (Option.some.inj h) D2
        · rintro (h | ⟨_, h, _, _⟩)
          · exact absurd h a1
          · exact absurd (D1.mpr h) b
    · rw [if_pos a]
      constructor
      · intro h; exact Or.inl (E2.mp (Option.some.inj h))
      · rintro (h | ⟨h, _, _, _⟩)
        · exact congrArg some (E2.mpr h)
        · exact absurd (E1.mpr h) a
  · intro h
    have k0 := E2.mpr h
    rw [KYPD_Scan_unfold, e0, if_pos (by rw [k0]; decide), k0]
  · intro rd' h8' h0 hs
    apply KYPD_Scan_congr_keys
    · rw [rowsOf_eq_rowReading _ (h8' 0 (by omega)), h0, e0]
    · rw [rowsOf_eq_rowReading _ (h8' 1 (by omega)), hs 1 (by omega) (by omega), e1, D3]
    · rw [rowsOf_eq_rowReading _ (h8' 2 (by omega)), hs 2 (by omega) (by omega), e2, B3]
    · rw [rowsOf_eq_rowReading _ (h8' 3 (by omega)), hs 3 (by omega) (by omega), e3, S3]

/-- Witness of C14: the first reading `0x3` (value `0x30`) makes the scan return 0. -/
theorem KYPD_Scan_returns_zero_iff_witness :
    (KYPD_Scan (fun _ => 0x30)).ret = some 0 ∧
      KYPD_Scan (fun _ => 0x30) = ⟨some 0, stepOps 0xe⟩ :=
  ⟨(KYPD_Scan_returns_zero_iff (fun _ => 0x30)
      (by intro j _; show (0x30 : Nat) < 256; decide)).1.mpr
      (Or.inl (by decide)),
    (KYPD_Scan_returns_zero_iff (fun _ => 0x30)
      (by intro j _; show (0x30 : Nat) < 256; decide)).2.1 (by decide)⟩

/-- C15: the result of `KYPD_Scan` and its sequence of column writes depend only on bits
4 to 7 of each 8-bit value read from the keypad register: two read sequences that agree on
the high nibble of every value read give the same result and the same writes (indeed the
same trace). -/
theorem KYPD_Scan_depends_on_high_nibble (rd rd' : Nat → Nat)
    (h8 : ∀ j, j < 4 → rd j < 256 ∧ rd' j < 256)
    (hn : ∀ j, j < 4 → rowReading (rd j) = rowReading (rd' j)) :
    (KYPD_Scan rd).ret = (KYPD_Scan rd').ret ∧
      writtenTo KEYPAD_CHANNEL (KYPD_Scan rd).ops =
        writtenTo KEYPAD_CHANNEL (KYPD_Scan rd').ops ∧
      (KYPD_Scan rd).ops = (KYPD_Scan rd').ops := by
  have e : ∀ j, j < 4 → rowsOf (rd j) = rowsOf (rd' j) := fun j hj => by
    rw [rowsOf_eq_rowReading _ (h8 j hj).1, rowsOf_eq_rowReading _ (h8 j hj).2, hn j hj]
  have h := KYPD_Scan_congr rd rd' (e 0 (by omega)) (e 1 (by omega)) (e 2 (by omega))
    (e 3 (by omega))
  rw [h]
  exact ⟨rfl, rfl, rfl⟩

/-- Witness of C15: the readings `0xF0, 0xE0` and `0xF3, 0xEC` differ only in bits 0 to 3;
both scans return 14. -/
theorem KYPD_Scan_depends_on_high_nibble_witness :
    (KYPD_Scan (fun n => if n = 0 then 0xF0 else 0xE0)).ret =
        (KYPD_Scan (fun n => if n = 0 then 0xF3 else 0xEC)).ret ∧
      (KYPD_Scan (fun n => if n = 0 then 0xF3 else 0xEC)).ret = some 14 :=
  ⟨(KYPD_Scan_depends_on_high_nibble (fun n => if n = 0 then 0xF0 else 0xE0)
      (fun n => if n = 0 then 0xF3 else 0xEC)
      (by intro j hj; interval_cases j <;> decide)
      (by intro j hj; interval_cases j <;> decide)).1,
    by decide⟩

/-- C16: `Delay` terminates and its loop body executes exactly once: from
`counter = 50000` the statement `counter -= counter` sets `counter` to 0 in the first
iteration, so the loop does not count down 50000 times. -/
theorem Delay_body_runs_once :
    Delay = (0, 1) ∧ Delay.loop 50000 0 = Delay.loop 0 1 ∧ Delay.2 ≠ 50000 := by
  have h1 : Delay.loop 50000 0 = Delay.loop 0 1 := by
    rw [Delay_loop_pos 50000 0 (by decide)]
    norm_num
  have h2 : Delay.loop 0 1 = (0, 1) := Delay_loop_nonpos 0 1 (by decide)
  have h : Delay = (0, 1) := by
    unfold Delay
    rw [h1, h2]
  refine ⟨h, h1, ?_⟩
  rw [h]
  decide

end Zynq
